import Mathlib

/-!
Shallow embedding of the network-observer core (src/src-tauri/src/lib.rs):
the per-connection protocol loop, the deduplication cache, the event
stores with the key/value projection, and the broadcast command bus.

Rust strings that are manipulated at the byte level (request bodies,
which `create_request_signature` slices by byte index) are modelled as
`List Nat` of UTF-8 bytes; other strings are Lean `String`s.  Machine
integers (`u64` timestamps, `u16` status codes) are `Nat`; the `u64`
subtractions in the dedup check are `Nat` truncated subtraction, which
agrees with Rust's `u64` arithmetic whenever the subtrahend is at most
the minuend — the theorems below carry that hypothesis where it matters.
Fallible operations (a Rust panic from slicing a string at a non
character boundary) return `Option`, with `none` for the panic.
-/

/-- lib.rs lines 23-29: `NetworkResponse`. -/
structure NetworkResponseT where
  status : Nat
  status_text : String
  headers : List (String × String)
  body : Option (List Nat)
deriving DecidableEq

/-- The data model of lib.rs lines 11-21: `NetworkRequest`.
`body` is the raw request body as UTF-8 bytes (Rust `Option<String>`). -/
structure NetworkRequest where
  id : String
  url : String
  method : String
  headers : List (String × String)
  body : Option (List Nat)
  response : Option NetworkResponseT
  timestamp : Nat
  duration : Option Nat
deriving DecidableEq

/-- lib.rs lines 31-43: `AsyncStorageOperation`. `data` is the optional
key to optional-value snapshot used by bulk replace. -/
structure AsyncStorageOperation where
  id : String
  operation : String
  key : Option String
  value : Option String
  keys : Option (List String)
  data : Option (List (String × Option String))
  timestamp : Nat
  success : Option Bool
  error : Option String
  command_id : Option String
deriving DecidableEq

/-- Rust `str::is_char_boundary i` on a UTF-8 byte string: true at 0 and
at the length, false past the end, and inside the string true exactly
when the byte at `i` is not a UTF-8 continuation byte. -/
def isCharBoundary (b : List Nat) (i : Nat) : Bool :=
  i == 0 || i == b.length ||
    (match b.get? i with
     | some c => !(128 ≤ c && c < 192)
     | none => false)

/-- Rust slice `&body[..i]`: panics (`none`) when `i` is not a char
boundary. -/
def sliceTo (b : List Nat) (i : Nat) : Option (List Nat) :=
  if isCharBoundary b i then some (b.take i) else none

/-- Rust slice `&body[i..]`: panics (`none`) when `i` is not a char
boundary. -/
def sliceFrom (b : List Nat) (i : Nat) : Option (List Nat) :=
  if isCharBoundary b i then some (b.drop i) else none

/-- The dedup signature, lib.rs line 84: the source formats the four
components into the string `method:url:body_hash:status`; we keep them
as a structured tuple with decidable equality. -/
structure RequestSignature where
  method : String
  url : String
  bodyHash : List Nat
  responseStatus : String
deriving DecidableEq

/-- lib.rs lines 69-85: `create_request_signature`.  Bodies longer than
100 bytes are fingerprinted as the first 50 bytes, the three ASCII dots
of `"..."`, and the last 50 bytes; the byte slices panic (`none`) off a
character boundary.  A missing response contributes `"pending"`. -/
def create_request_signature (request : NetworkRequest) : Option RequestSignature := do
  let bodyHash ←
    match request.body with
    | none => some []
    | some body =>
      if body.length > 100 then do
        let pre ← sliceTo body 50
        let suf ← sliceFrom body (body.length - 50)
        some (pre ++ [46, 46, 46] ++ suf)
      else
        some body
  let responseStatus :=
    match request.response with
    | some r => Nat.repr r.status
    | none => "pending"
  some ⟨request.method, request.url, bodyHash, responseStatus⟩

/-- First-match association lookup (`HashMap::get`). -/
def lookupKey {K V : Type} [DecidableEq K] (m : List (K × V)) (k : K) : Option V :=
  match m with
  | [] => none
  | p :: rest => if p.1 = k then some p.2 else lookupKey rest k

/-- Remove every binding of `k` (`HashMap::remove`, ignoring the returned
value). -/
def eraseKey {K V : Type} [DecidableEq K] (k : K) (m : List (K × V)) : List (K × V) :=
  match m with
  | [] => []
  | p :: rest => if p.1 = k then eraseKey k rest else p :: eraseKey k rest

/-- `HashMap::insert`: bind `k` to `v`, replacing any previous binding. -/
def mapInsert {K V : Type} [DecidableEq K] (m : List (K × V)) (k : K) (v : V) : List (K × V) :=
  (k, v) :: eraseKey k m

/-- lib.rs line 253: `cache.retain` keeping entries whose timestamp is
within 300 seconds of `t` (`u64` subtraction, here `Nat` truncated). -/
def retainFresh (t : Nat) (m : List (RequestSignature × Nat)) : List (RequestSignature × Nat) :=
  match m with
  | [] => []
  | p :: rest => if t - p.2 < 300 then p :: retainFresh t rest else retainFresh t rest

/-- The shared stores of lib.rs lines 61-67 and 401-404: the traffic
history (`RequestStore`), the storage-operation history
(`AsyncStorageStore`), the key/value projection
(`AsyncStorageDataStore`) and the dedup cache (`DeduplicationCache`). -/
structure ServerState where
  requests : List NetworkRequest
  asyncStorageOps : List AsyncStorageOperation
  asyncStorageData : List (String × Option String)
  dedupCache : List (RequestSignature × Nat)
deriving DecidableEq

/-- Events pushed to the frontend observer via `app_handle.emit`
(lib.rs lines 279 and 334). -/
inductive Emit where
  | newRequest (r : NetworkRequest)
  | asyncStorageOperation (op : AsyncStorageOperation)
deriving DecidableEq

/-- lib.rs lines 238-240: a request arriving with an empty id gets a
freshly generated one. -/
def assignRequestId (r : NetworkRequest) (fresh : String) : NetworkRequest :=
  if r.id = "" then { r with id := fresh } else r

/-- lib.rs lines 292-294: a storage operation arriving with an empty id
gets a freshly generated one. -/
def assignOperationId (op : AsyncStorageOperation) (fresh : String) : AsyncStorageOperation :=
  if op.id = "" then { op with id := fresh } else op

/-- lib.rs lines 249-268, the `should_process` block: evict entries
older than 300 seconds, then accept iff the signature is absent or was
last seen at least 2 seconds ago, recording the current time on accept.
Returns the decision and the updated cache. -/
def dedup_decision (cache : List (RequestSignature × Nat)) (sig : RequestSignature)
    (t : Nat) : Bool × List (RequestSignature × Nat) :=
  let cache1 := retainFresh t cache
  match lookupKey cache1 sig with
  | some lastSeen =>
    if t - lastSeen < 2 then (false, cache1)
    else (true, mapInsert cache1 sig t)
  | none => (true, mapInsert cache1 sig t)

/-- lib.rs lines 237-284: processing a decoded `NetworkRequest`.
`fresh` stands for the `Uuid::new_v4` draw, `t` for the current epoch
second.  `none` is the panic of `create_request_signature` on a body
sliced off a character boundary.  When the dedup decision accepts, the
request is appended to the traffic history and a `new-request`
notification is emitted; otherwise only the cache (eviction) changes. -/
def process_network_request (s : ServerState) (r : NetworkRequest) (fresh : String)
    (t : Nat) : Option (ServerState × List Emit) :=
  let request := assignRequestId r fresh
  match create_request_signature request with
  | none => none
  | some sig =>
    let dec := dedup_decision s.dedupCache sig t
    if dec.1 then
      some ({ s with requests := s.requests ++ [request], dedupCache := dec.2 },
            [Emit.newRequest request])
    else
      some ({ s with dedupCache := dec.2 }, [])

/-- lib.rs lines 298-325: the projection update for one storage
operation, a chain of string comparisons as in the Rust `match` on
`operation.operation.as_str()`.  Operations with missing required
fields leave the projection unchanged; `getAllDataResponse` clears and
reinserts every snapshot pair in order. -/
def apply_storage_operation (data : List (String × Option String))
    (op : AsyncStorageOperation) : List (String × Option String) :=
  if op.operation = "setItem" then
    match op.key, op.value with
    | some k, some v => mapInsert data k (some v)
    | _, _ => data
  else if op.operation = "removeItem" then
    match op.key with
    | some k => eraseKey k data
    | none => data
  else if op.operation = "clear" then
    []
  else if op.operation = "getAllDataResponse" then
    match op.data with
    | some snapshot => snapshot.foldl (fun m p => mapInsert m p.1 p.2) []
    | none => data
  else
    data

/-- lib.rs lines 291-338: processing a decoded `AsyncStorageOperation`:
assign a fresh id if empty, update the projection, append the operation
to the storage history, emit an `asyncstorage-operation` notification. -/
def process_storage_operation (s : ServerState) (op0 : AsyncStorageOperation)
    (fresh : String) : ServerState × List Emit :=
  let operation := assignOperationId op0 fresh
  ({ s with
      asyncStorageData := apply_storage_operation s.asyncStorageData operation,
      asyncStorageOps := s.asyncStorageOps ++ [operation] },
   [Emit.asyncStorageOperation operation])

/-- JSON values, for the serde layer.  Numbers are restricted to the
naturals, which covers every numeric field of the wire structs (`u64`
timestamps and durations, `u16` status codes). -/
inductive Json where
  | null
  | bool (b : Bool)
  | num (n : Nat)
  | str (s : String)
  | arr (elems : List Json)
  | obj (fields : List (String × Json))

/-- First binding of a field name in a JSON object's field list. -/
def findField (fields : List (String × Json)) (name : String) : Option Json :=
  match fields with
  | [] => none
  | p :: rest => if p.1 = name then some p.2 else findField rest name

/-- `serde_json::Value::get` on an object; `none` on non-objects. -/
def Json.getField (j : Json) (name : String) : Option Json :=
  match j with
  | Json.obj fields => findField fields name
  | _ => none

def asString (j : Json) : Option String :=
  match j with
  | Json.str s => some s
  | _ => none

def asBool (j : Json) : Option Bool :=
  match j with
  | Json.bool b => some b
  | _ => none

/-- serde deserialization of a `u64` field. -/
def asNat64 (j : Json) : Option Nat :=
  match j with
  | Json.num n => if n < 2 ^ 64 then some n else none
  | _ => none

/-- serde deserialization of a `u16` field. -/
def asNat16 (j : Json) : Option Nat :=
  match j with
  | Json.num n => if n < 2 ^ 16 then some n else none
  | _ => none

/-- UTF-8 encoding of one character. -/
def utf8Bytes (c : Char) : List Nat :=
  let n := c.toNat
  if n < 128 then [n]
  else if n < 2048 then [192 + n / 64, 128 + n % 64]
  else if n < 65536 then [224 + n / 4096, 128 + (n / 64) % 64, 128 + n % 64]
  else [240 + n / 262144, 128 + (n / 4096) % 64, 128 + (n / 64) % 64, 128 + n % 64]

/-- The UTF-8 bytes of a string, for `String`-valued JSON fields that
the Rust code stores as `String` and later slices by byte. -/
def strBytes (s : String) : List Nat :=
  s.data.foldr (fun c acc => utf8Bytes c ++ acc) []

def asBytes (j : Json) : Option (List Nat) :=
  (asString j).map strBytes

/-- serde deserialization of `HashMap<String, String>`: an object all of
whose values are strings. -/
def asStringPairs (fields : List (String × Json)) : Option (List (String × String)) :=
  match fields with
  | [] => some []
  | (k, v) :: rest =>
    match v with
    | Json.str s => (asStringPairs rest).map (fun r => (k, s) :: r)
    | _ => none

def asStringMap (j : Json) : Option (List (String × String)) :=
  match j with
  | Json.obj fields => asStringPairs fields
  | _ => none

/-- serde deserialization of `HashMap<String, Option<String>>`: values
are strings or `null`. -/
def asOptStringPairs (fields : List (String × Json)) : Option (List (String × Option String)) :=
  match fields with
  | [] => some []
  | (k, v) :: rest =>
    match v with
    | Json.str s => (asOptStringPairs rest).map (fun r => (k, some s) :: r)
    | Json.null => (asOptStringPairs rest).map (fun r => (k, none) :: r)
    | _ => none

def asOptStringMap (j : Json) : Option (List (String × Option String)) :=
  match j with
  | Json.obj fields => asOptStringPairs fields
  | _ => none

/-- serde deserialization of `Vec<String>`. -/
def asStringList (j : Json) : Option (List String) :=
  match j with
  | Json.arr elems =>
    elems.foldr (fun e acc => do
      let s ← asString e
      let r ← acc
      pure (s :: r)) (some [])
  | _ => none

/-- serde treatment of an `Option` field: absent or `null` gives `none`,
anything else must deserialize at the inner type. -/
def decodeOptField {α : Type} (j : Json) (name : String) (f : Json → Option α) :
    Option (Option α) :=
  match j.getField name with
  | none => some none
  | some Json.null => some none
  | some v => (f v).map some

/-- `serde_json::from_str::<NetworkResponse>` on a parsed value:
required `status`, `status_text`, `headers`; optional `body`. -/
def decodeNetworkResponse (j : Json) : Option NetworkResponseT :=
  match j with
  | Json.obj _ => do
    let status ← (j.getField "status").bind asNat16
    let status_text ← (j.getField "status_text").bind asString
    let headers ← (j.getField "headers").bind asStringMap
    let body ← decodeOptField j "body" asBytes
    some ⟨status, status_text, headers, body⟩
  | _ => none

/-- `serde_json::from_str::<NetworkRequest>` on a parsed value
(lib.rs line 237): `id`, `url`, `method`, `headers` and `timestamp`
are required, the `Option` fields are optional; unknown fields
(including a `"type"` discriminant) are ignored by serde's default. -/
def decodeNetworkRequest (j : Json) : Option NetworkRequest :=
  match j with
  | Json.obj _ => do
    let id ← (j.getField "id").bind asString
    let url ← (j.getField "url").bind asString
    let method ← (j.getField "method").bind asString
    let headers ← (j.getField "headers").bind asStringMap
    let body ← decodeOptField j "body" asBytes
    let response ← decodeOptField j "response" decodeNetworkResponse
    let timestamp ← (j.getField "timestamp").bind asNat64
    let duration ← decodeOptField j "duration" asNat64
    some ⟨id, url, method, headers, body, response, timestamp, duration⟩
  | _ => none

/-- `serde_json::from_str::<AsyncStorageOperation>` on a parsed value
(lib.rs line 291). -/
def decodeAsyncStorageOperation (j : Json) : Option AsyncStorageOperation :=
  match j with
  | Json.obj _ => do
    let id ← (j.getField "id").bind asString
    let operation ← (j.getField "operation").bind asString
    let key ← decodeOptField j "key" asString
    let value ← decodeOptField j "value" asString
    let keys ← decodeOptField j "keys" asStringList
    let data ← decodeOptField j "data" asOptStringMap
    let timestamp ← (j.getField "timestamp").bind asNat64
    let success ← decodeOptField j "success" asBool
    let error ← decodeOptField j "error" asString
    let command_id ← decodeOptField j "command_id" asString
    some ⟨id, operation, key, value, keys, data, timestamp, success, error, command_id⟩
  | _ => none

/-- The content of one inbound text frame: `none` when the text is not
valid JSON (so every `serde_json::from_str` on it fails), otherwise the
parsed value. -/
def TextDoc : Type := Option Json

/-- lib.rs lines 233-367: the decode-and-dispatch of one text frame.
First try `NetworkRequest`; failing that, parse as a generic value and
dispatch on the `"type"` field, where only `"asyncstorage-operation"`
is recognized; everything else is logged and discarded, leaving the
state unchanged.  `none` is the signature-computation panic. -/
def handle_text (s : ServerState) (doc : TextDoc) (fresh : String) (t : Nat) :
    Option (ServerState × List Emit) :=
  match doc with
  | none => some (s, [])
  | some j =>
    match decodeNetworkRequest j with
    | some request => process_network_request s request fresh t
    | none =>
      match j.getField "type" with
      | some (Json.str msgType) =>
        if msgType = "asyncstorage-operation" then
          match decodeAsyncStorageOperation j with
          | some operation => some (process_storage_operation s operation fresh)
          | none => some (s, [])
        else
          some (s, [])
      | _ => some (s, [])

/-- One item delivered to the per-connection read loop, mirroring the
`Result<Message, Error>` of `ws_receiver.next()`. -/
inductive InFrame where
  | text (doc : TextDoc)
  | close
  | ping (payload : List Nat)
  | pong (payload : List Nat)
  | binary (payload : List Nat)
  | readError

/-- Frames the handler writes to its client. -/
inductive OutFrame where
  | text (j : Json)
  | pong (payload : List Nat)

/-- The observable state of one connection handler (lib.rs lines
199-397): the shared server stores, whether the read loop
(lines 231-393) is still running, whether the relay task
(lines 221-228) is still running, whether writes to the client sink
fail (`sinkBroken` is the environment fact that `sender.send` returns
an error), the frames written so far and the notifications emitted. -/
structure HandlerState where
  server : ServerState
  readAlive : Bool
  relayAlive : Bool
  sinkBroken : Bool
  sent : List OutFrame
  emits : List Emit

/-- Leaving the read loop: the handler reaches line 396 and aborts the
relay task (`command_task.abort()`). -/
def teardown (h : HandlerState) : HandlerState :=
  { h with readAlive := false, relayAlive := false }

/-- lib.rs lines 221-228, one iteration of the relay task: on a bus
command, write it to the client; if the write fails the task breaks out
of its loop and simply ends — nothing else in the handler observes
this. -/
def relay_step (h : HandlerState) (command : Json) : HandlerState :=
  if h.relayAlive then
    if h.sinkBroken then { h with relayAlive := false }
    else { h with sent := h.sent ++ [OutFrame.text command] }
  else h

/-- lib.rs lines 231-393, one iteration of the read loop.  Text frames
go through `handle_text` (with `none` for a panic); a close frame or a
read error breaks the loop, after which the relay task is aborted; a
ping is answered with a pong of the same payload, a failed pong write
also breaking the loop; pongs and other message types are ignored. -/
def read_step (h : HandlerState) (fr : InFrame) (fresh : String) (t : Nat) :
    Option HandlerState :=
  if h.readAlive then
    match fr with
    | InFrame.text doc =>
      match handle_text h.server doc fresh t with
      | some (s', es) => some { h with server := s', emits := h.emits ++ es }
      | none => none
    | InFrame.close => some (teardown h)
    | InFrame.ping payload =>
      if h.sinkBroken then some (teardown h)
      else some { h with sent := h.sent ++ [OutFrame.pong payload] }
    | InFrame.pong _ => some h
    | InFrame.binary _ => some h
    | InFrame.readError => some (teardown h)
  else some h

/-- One read-loop input: the frame together with the id draw and the
clock reading its processing would use. -/
structure ReadInput where
  frame : InFrame
  fresh : String
  time : Nat

/-- The read loop over a finite prefix of the inbound stream. -/
def run_read (h : HandlerState) (inputs : List ReadInput) : Option HandlerState :=
  match inputs with
  | [] => some h
  | i :: rest =>
    match read_step h i.frame i.fresh i.time with
    | some h' => run_read h' rest
    | none => none

/-- The broadcast bus (lib.rs line 405, `broadcast::channel(100)`),
abstracted as the pending queue of every live subscriber.  The
capacity-100 lag behaviour is not modelled; no claim concerns it. -/
structure Bus where
  queues : List (List Json)

/-- `broadcast::Sender::send`: append the message to every subscriber's
queue; returns `Except.error` exactly when there is no subscriber (the
message is dropped), else the number of receivers. -/
def broadcast_send (b : Bus) (msg : Json) : Bus × Except Unit Nat :=
  match b.queues with
  | [] => (b, Except.error ())
  | _ => (⟨b.queues.map (fun q => q ++ [msg])⟩, Except.ok b.queues.length)

/-- Serialization of `WebSocketMessage::AsyncStorageCommand` with
serde's internal `"type"` tag (lib.rs lines 45-59 and 142). -/
def encode_command (id operation : String) (key value : Option String) : Json :=
  Json.obj [("type", Json.str "asyncstorage-command"),
            ("id", Json.str id),
            ("operation", Json.str operation),
            ("key", match key with | some k => Json.str k | none => Json.null),
            ("value", match value with | some v => Json.str v | none => Json.null)]

/-- lib.rs lines 127-148: `send_async_storage_command`.  `newId` stands
for the `Uuid::new_v4` draw.  The command is encoded and published on
the bus; the `send` result is discarded (`let _ = ...`), so the Tauri
command returns `Ok(())` whether or not anyone is subscribed. -/
def send_async_storage_command (operation : String) (key value : Option String)
    (newId : String) (bus : Bus) : Except String Unit × Bus :=
  let command := encode_command newId operation key value
  let sendResult := broadcast_send bus command
  (Except.ok (), sendResult.1)

/-! Association-map lemmas. -/

theorem lookupKey_cons {K V : Type} [DecidableEq K] (p : K × V) (m : List (K × V)) (k : K) :
    lookupKey (p :: m) k = if p.1 = k then some p.2 else lookupKey m k := rfl

theorem lookupKey_mapInsert_self {K V : Type} [DecidableEq K] (m : List (K × V)) (k : K)
    (v : V) : lookupKey (mapInsert m k v) k = some v := by
  simp [mapInsert, lookupKey]

theorem lookupKey_eraseKey_ne {K V : Type} [DecidableEq K] (m : List (K × V)) {k k' : K}
    (h : k' ≠ k) : lookupKey (eraseKey k m) k' = lookupKey m k' := by
  induction m with
  | nil => rfl
  | cons p rest ih =>
    by_cases hp : p.1 = k
    · have hpk : ¬ p.1 = k' := by
        rw [hp]
        exact fun he => h he.symm
      rw [show eraseKey k (p :: rest) = eraseKey k rest from by simp [eraseKey, hp],
          ih, lookupKey_cons, if_neg hpk]
    · rw [show eraseKey k (p :: rest) = p :: eraseKey k rest from by simp [eraseKey, hp],
          lookupKey_cons, lookupKey_cons, ih]

theorem lookupKey_mapInsert_ne {K V : Type} [DecidableEq K] (m : List (K × V)) {k k' : K}
    (v : V) (h : k' ≠ k) : lookupKey (mapInsert m k v) k' = lookupKey m k' := by
  rw [mapInsert, lookupKey_cons, if_neg (fun he => h he.symm), lookupKey_eraseKey_ne m h]

theorem eraseKey_forall_ne {K V : Type} [DecidableEq K] (k : K) (m : List (K × V)) :
    ∀ p ∈ eraseKey k m, p.1 ≠ k := by
  induction m with
  | nil => intro p hp; cases hp
  | cons q rest ih =>
    intro p hp
    by_cases hq : q.1 = k
    · exact ih p (by simpa [eraseKey, hq] using hp)
    · rcases (by simpa [eraseKey, hq] using hp : p = q ∨ p ∈ eraseKey k rest) with h1 | h1
      · rw [h1]; exact hq
      · exact ih p h1

theorem lookupKey_eq_none_of_forall {K V : Type} [DecidableEq K] {m : List (K × V)} {k : K}
    (h : ∀ p ∈ m, p.1 ≠ k) : lookupKey m k = none := by
  induction m with
  | nil => rfl
  | cons p rest ih =>
    have hp := h p (by simp)
    simp [lookupKey, hp]
    exact ih fun q hq => h q (by simp [hq])

theorem lookupKey_eraseKey_self {K V : Type} [DecidableEq K] (k : K) (m : List (K × V)) :
    lookupKey (eraseKey k m) k = none :=
  lookupKey_eq_none_of_forall (eraseKey_forall_ne k m)

theorem mem_retainFresh {t : Nat} {m : List (RequestSignature × Nat)}
    {p : RequestSignature × Nat} (h : p ∈ retainFresh t m) : p ∈ m := by
  induction m with
  | nil => cases h
  | cons q rest ih =>
    by_cases hq : t - q.2 < 300
    · rcases (by simpa [retainFresh, hq] using h : p = q ∨ p ∈ retainFresh t rest) with h1 | h1
      · simp [h1]
      · simp [ih h1]
    · simp [ih (by simpa [retainFresh, hq] using h)]

theorem lookupKey_retainFresh_eraseKey (t : Nat) (k : RequestSignature)
    (m : List (RequestSignature × Nat)) :
    lookupKey (retainFresh t (eraseKey k m)) k = none :=
  lookupKey_eq_none_of_forall fun p hp => eraseKey_forall_ne k m p (mem_retainFresh hp)

theorem retainFresh_cons (t : Nat) (p : RequestSignature × Nat)
    (m : List (RequestSignature × Nat)) :
    retainFresh t (p :: m) =
      if t - p.2 < 300 then p :: retainFresh t m else retainFresh t m := rfl

theorem lookupKey_retainFresh_found {m : List (RequestSignature × Nat)}
    {k : RequestSignature} {u t : Nat} (h : lookupKey m k = some u) (hfresh : t - u < 300) :
    lookupKey (retainFresh t m) k = some u := by
  induction m with
  | nil => cases h
  | cons p rest ih =>
    by_cases hp : p.1 = k
    · have hv : p.2 = u := by simpa [lookupKey, hp] using h
      rw [retainFresh_cons, if_pos (by rw [hv]; exact hfresh)]
      simp [lookupKey, hp, hv]
    · have h' : lookupKey rest k = some u := by simpa [lookupKey, hp] using h
      rw [retainFresh_cons]
      by_cases hkeep : t - p.2 < 300
      · simp [hkeep, lookupKey, hp, ih h']
      · simp [hkeep, ih h']

theorem lookupKey_eq_none_of_not_mem_keys {K V : Type} [DecidableEq K]
    {m : List (K × V)} {k : K} (h : k ∉ m.map Prod.fst) : lookupKey m k = none :=
  lookupKey_eq_none_of_forall fun p hp he =>
    h (by rw [← he]; exact List.mem_map_of_mem Prod.fst hp)

theorem lookupKey_retainFresh_stale {m : List (RequestSignature × Nat)}
    {k : RequestSignature} {u t : Nat} (hnodup : (m.map Prod.fst).Nodup)
    (h : lookupKey m k = some u) (hstale : ¬ t - u < 300) :
    lookupKey (retainFresh t m) k = none := by
  induction m with
  | nil => cases h
  | cons p rest ih =>
    have hnd := List.nodup_cons.mp
      (show (p.1 :: rest.map Prod.fst).Nodup by simpa using hnodup)
    have hnd1 : p.1 ∉ rest.map Prod.fst := hnd.1
    have hnd2 : (rest.map Prod.fst).Nodup := hnd.2
    by_cases hp : p.1 = k
    · have hv : p.2 = u := by simpa [lookupKey, hp] using h
      rw [retainFresh_cons, if_neg (by rw [hv]; exact hstale)]
      exact lookupKey_eq_none_of_forall fun q hq he =>
        hnd1 (by rw [hp, ← he]; exact List.mem_map_of_mem Prod.fst (mem_retainFresh hq))
    · have h' : lookupKey rest k = some u := by simpa [lookupKey, hp] using h
      rw [retainFresh_cons]
      by_cases hkeep : t - p.2 < 300
      · simp [hkeep, lookupKey, hp, ih hnd2 h']
      · simp [hkeep, ih hnd2 h']

/-! Dedup-decision lemmas. -/

theorem dedup_decision_found_recent {cache : List (RequestSignature × Nat)}
    {sig : RequestSignature} {t u : Nat}
    (h : lookupKey (retainFresh t cache) sig = some u) (hrec : t - u < 2) :
    dedup_decision cache sig t = (false, retainFresh t cache) := by
  simp [dedup_decision, h, hrec]

theorem dedup_decision_found_old {cache : List (RequestSignature × Nat)}
    {sig : RequestSignature} {t u : Nat}
    (h : lookupKey (retainFresh t cache) sig = some u) (hold : ¬ t - u < 2) :
    dedup_decision cache sig t = (true, mapInsert (retainFresh t cache) sig t) := by
  simp [dedup_decision, h, hold]

theorem dedup_decision_absent {cache : List (RequestSignature × Nat)}
    {sig : RequestSignature} {t : Nat}
    (h : lookupKey (retainFresh t cache) sig = none) :
    dedup_decision cache sig t = (true, mapInsert (retainFresh t cache) sig t) := by
  simp [dedup_decision, h]

theorem dedup_decision_accept_cache {cache : List (RequestSignature × Nat)}
    {sig : RequestSignature} {t : Nat} (h : (dedup_decision cache sig t).1 = true) :
    (dedup_decision cache sig t).2 = mapInsert (retainFresh t cache) sig t := by
  cases hl : lookupKey (retainFresh t cache) sig with
  | none => rw [dedup_decision_absent hl]
  | some u =>
    by_cases hrec : t - u < 2
    · rw [dedup_decision_found_recent hl hrec] at h
      cases h
    · rw [dedup_decision_found_old hl hrec]

theorem process_network_request_eq {s : ServerState} {r : NetworkRequest} {fresh : String}
    {t : Nat} {sig : RequestSignature}
    (hsig : create_request_signature (assignRequestId r fresh) = some sig) :
    process_network_request s r fresh t =
      (if (dedup_decision s.dedupCache sig t).1 then
        some ({ s with requests := s.requests ++ [assignRequestId r fresh],
                       dedupCache := (dedup_decision s.dedupCache sig t).2 },
              [Emit.newRequest (assignRequestId r fresh)])
       else
        some ({ s with dedupCache := (dedup_decision s.dedupCache sig t).2 }, [])) := by
  simp only [process_network_request, hsig]

/-- A request whose 101-byte body has the two-byte UTF-8 character
`é` (bytes 195, 169) straddling byte index 50. -/
def straddlingRequest : NetworkRequest :=
  { id := "r1", url := "https://example.com/api", method := "POST",
    headers := [],
    body := some (List.replicate 49 97 ++ [195, 169] ++ List.replicate 50 97),
    response := none, timestamp := 0, duration := none }

/-- C8: computing the dedup signature is not total: `straddlingRequest`
has a body longer than 100 bytes with a multi-byte UTF-8 character
straddling byte index 50, and the byte slice `&body[..50]` of
`create_request_signature` falls inside that character, so the slicing
panics (`none`) instead of returning a signature. -/
theorem c8_signature_slicing_panics :
    (∃ b, straddlingRequest.body = some b ∧ b.length = 101 ∧ 100 < b.length)
    ∧ create_request_signature straddlingRequest = none := by
  refine ⟨⟨List.replicate 49 97 ++ [195, 169] ++ List.replicate 50 97, rfl, by decide, by decide⟩, ?_⟩
  decide

/-- C6: `send_async_storage_command` builds an `AsyncStorageCommand`
with the freshly drawn identifier `newId`, publishes its encoded frame
on the bus (it lands at the tail of every subscriber's queue), and
returns `Ok(())` unconditionally — in particular with zero subscribers,
where the underlying `broadcast::Sender::send` reports an error that is
silently discarded. -/
theorem c6_send_command_always_ok :
    ∀ (operation : String) (key value : Option String) (newId : String) (bus : Bus),
      (send_async_storage_command operation key value newId bus).1 = Except.ok ()
      ∧ (send_async_storage_command operation key value newId bus).2.queues
          = bus.queues.map (fun q => q ++ [encode_command newId operation key value])
      ∧ ∀ msg, (broadcast_send ⟨[]⟩ msg).2 = Except.error () := by
  intro operation key value newId bus
  refine ⟨rfl, ?_, fun msg => rfl⟩
  cases hq : bus.queues with
  | nil => simp [send_async_storage_command, broadcast_send, hq]
  | cons q rest => simp [send_async_storage_command, broadcast_send, hq]

theorem assignOperationId_fields (op : AsyncStorageOperation) (fresh : String) :
    (assignOperationId op fresh).operation = op.operation
    ∧ (assignOperationId op fresh).key = op.key
    ∧ (assignOperationId op fresh).value = op.value
    ∧ (assignOperationId op fresh).data = op.data := by
  unfold assignOperationId
  split <;> exact ⟨rfl, rfl, rfl, rfl⟩

theorem lookupKey_foldl_mapInsert (snapshot : List (String × Option String))
    (m : List (String × Option String)) (q : String)
    (hnodup : (snapshot.map Prod.fst).Nodup) :
    lookupKey (snapshot.foldl (fun acc p => mapInsert acc p.1 p.2) m) q =
     (match lookupKey snapshot q with
      | some v => some v
      | none => lookupKey m q) := by
  induction snapshot generalizing m with
  | nil => rfl
  | cons p rest ih =>
    have hnd := List.nodup_cons.mp
      (show (p.1 :: rest.map Prod.fst).Nodup by simpa using hnodup)
    rw [List.foldl_cons, ih (mapInsert m p.1 p.2) hnd.2]
    by_cases hq : p.1 = q
    · rw [← hq, lookupKey_eq_none_of_not_mem_keys hnd.1, lookupKey_cons, if_pos rfl,
          lookupKey_mapInsert_self]
    · rw [lookupKey_cons, if_neg hq,
          lookupKey_mapInsert_ne m p.2 (fun he => hq he.symm)]

theorem process_storage_operation_data (s : ServerState) (op : AsyncStorageOperation)
    (fresh : String) :
    (process_storage_operation s op fresh).1.asyncStorageData
      = apply_storage_operation s.asyncStorageData (assignOperationId op fresh) := rfl

theorem apply_storage_setItem (d : List (String × Option String))
    (op : AsyncStorageOperation) (hop : op.operation = "setItem") :
    apply_storage_operation d op =
      (match op.key, op.value with
       | some k, some v => mapInsert d k (some v)
       | _, _ => d) := by
  simp only [apply_storage_operation, hop]
  rw [if_pos trivial]

theorem apply_storage_removeItem (d : List (String × Option String))
    (op : AsyncStorageOperation) (hop : op.operation = "removeItem") :
    apply_storage_operation d op =
      (match op.key with
       | some k => eraseKey k d
       | none => d) := by
  simp only [apply_storage_operation, hop]
  rw [if_neg (by decide : ¬ ("removeItem" : String) = "setItem"), if_pos trivial]

theorem apply_storage_clear (d : List (String × Option String))
    (op : AsyncStorageOperation) (hop : op.operation = "clear") :
    apply_storage_operation d op = [] := by
  simp only [apply_storage_operation, hop]
  rw [if_neg (by decide : ¬ ("clear" : String) = "setItem"),
      if_neg (by decide : ¬ ("clear" : String) = "removeItem"), if_pos trivial]

theorem apply_storage_bulk (d : List (String × Option String))
    (op : AsyncStorageOperation) (hop : op.operation = "getAllDataResponse") :
    apply_storage_operation d op =
      (match op.data with
       | some snapshot => snapshot.foldl (fun m p => mapInsert m p.1 p.2) []
       | none => d) := by
  simp only [apply_storage_operation, hop]
  rw [if_neg (by decide : ¬ ("getAllDataResponse" : String) = "setItem"),
      if_neg (by decide : ¬ ("getAllDataResponse" : String) = "removeItem"),
      if_neg (by decide : ¬ ("getAllDataResponse" : String) = "clear"), if_pos trivial]

/-- C3: applying an accepted storage event to the key/value projection:
`setItem` with key and value present inserts or overwrites that key and
touches no other; `removeItem` with key present deletes the key (a
total operation, so an absent key is no error) and touches no other;
`clear` empties the projection; `getAllDataResponse` (bulk replace)
with a snapshot map makes the projection agree pointwise with the
snapshot, discarding every pre-existing key.  The last conjunct ties
the projection update into the full per-operation step. -/
theorem c3_projection_semantics :
    (∀ (d : List (String × Option String)) (op : AsyncStorageOperation) (k v : String),
      op.operation = "setItem" → op.key = some k → op.value = some v →
        lookupKey (apply_storage_operation d op) k = some (some v)
        ∧ ∀ k', k' ≠ k → lookupKey (apply_storage_operation d op) k' = lookupKey d k')
    ∧ (∀ (d : List (String × Option String)) (op : AsyncStorageOperation) (k : String),
      op.operation = "removeItem" → op.key = some k →
        lookupKey (apply_storage_operation d op) k = none
        ∧ ∀ k', k' ≠ k → lookupKey (apply_storage_operation d op) k' = lookupKey d k')
    ∧ (∀ (d : List (String × Option String)) (op : AsyncStorageOperation),
      op.operation = "clear" → apply_storage_operation d op = [])
    ∧ (∀ (d snapshot : List (String × Option String)) (op : AsyncStorageOperation),
      op.operation = "getAllDataResponse" → op.data = some snapshot →
      (snapshot.map Prod.fst).Nodup →
        ∀ q, lookupKey (apply_storage_operation d op) q = lookupKey snapshot q)
    ∧ (∀ (s : ServerState) (op : AsyncStorageOperation) (fresh : String),
      (process_storage_operation s op fresh).1.asyncStorageData
        = apply_storage_operation s.asyncStorageData (assignOperationId op fresh)) := by
  refine ⟨?_, ?_, ?_, ?_, process_storage_operation_data⟩
  · intro d op k v hop hk hv
    rw [apply_storage_setItem d op hop, hk, hv]
    exact ⟨lookupKey_mapInsert_self d k (some v),
           fun k' hk' => lookupKey_mapInsert_ne d (some v) hk'⟩
  · intro d op k hop hk
    rw [apply_storage_removeItem d op hop, hk]
    exact ⟨lookupKey_eraseKey_self k d, fun k' hk' => lookupKey_eraseKey_ne d hk'⟩
  · intro d op hop
    exact apply_storage_clear d op hop
  · intro d snapshot op hop hdata hnodup q
    rw [apply_storage_bulk d op hop, hdata]
    rw [lookupKey_foldl_mapInsert snapshot [] q hnodup]
    cases lookupKey snapshot q <;> rfl

/-- C4: every decoded storage event is appended to the storage history
exactly once, whether or not its fields suffice to mutate the
projection; when required fields are missing (`setItem` without key or
value, `removeItem` without key, bulk replace without a snapshot) the
projection is untouched while the history entry is still recorded. -/
theorem c4_history_unconditional (s : ServerState) (op : AsyncStorageOperation)
    (fresh : String) :
    (process_storage_operation s op fresh).1.asyncStorageOps
        = s.asyncStorageOps ++ [assignOperationId op fresh]
    ∧ (op.operation = "setItem" → op.key = none ∨ op.value = none →
        (process_storage_operation s op fresh).1.asyncStorageData = s.asyncStorageData)
    ∧ (op.operation = "removeItem" → op.key = none →
        (process_storage_operation s op fresh).1.asyncStorageData = s.asyncStorageData)
    ∧ (op.operation = "getAllDataResponse" → op.data = none →
        (process_storage_operation s op fresh).1.asyncStorageData = s.asyncStorageData) := by
  obtain ⟨hopf, hkf, hvf, hdf⟩ := assignOperationId_fields op fresh
  refine ⟨rfl, ?_, ?_, ?_⟩
  · intro hop hmiss
    rw [process_storage_operation_data,
        apply_storage_setItem _ _ (by rw [hopf, hop]), hkf, hvf]
    rcases hmiss with hk | hv
    · rw [hk]
    · rw [hv]
      cases op.key <;> rfl
  · intro hop hk
    rw [process_storage_operation_data,
        apply_storage_removeItem _ _ (by rw [hopf, hop]), hkf, hk]
  · intro hop hd
    rw [process_storage_operation_data,
        apply_storage_bulk _ _ (by rw [hopf, hop]), hdf, hd]

theorem accepted_cache_shape {s s1 : ServerState} {es1 : List Emit} {r : NetworkRequest}
    {f : String} {t : Nat} {sig : RequestSignature}
    (hsig : create_request_signature (assignRequestId r f) = some sig)
    (h1 : process_network_request s r f t = some (s1, es1))
    (hacc : s1.requests = s.requests ++ [assignRequestId r f]) :
    s1.dedupCache = mapInsert (retainFresh t s.dedupCache) sig t := by
  rw [process_network_request_eq hsig] at h1
  cases hdec : (dedup_decision s.dedupCache sig t).1 with
  | true =>
    rw [if_pos hdec] at h1
    simp only [Option.some.injEq, Prod.mk.injEq] at h1
    rw [← h1.1]
    exact dedup_decision_accept_cache hdec
  | false =>
    rw [if_neg (by rw [hdec]; exact Bool.false_ne_true)] at h1
    simp only [Option.some.injEq, Prod.mk.injEq] at h1
    have hreq : s1.requests = s.requests := by rw [← h1.1]
    rw [hreq] at hacc
    have hlen := congrArg List.length hacc
    simp at hlen

/-- C1: two submissions with the same dedup signature on a connection.
The first is taken to have been accepted (appended to the history).  If
the second arrives strictly less than 2 seconds later it is rejected:
only the lazily evicted cache changes — the history is not extended and
no notification is emitted.  If it arrives 2 or more seconds later it
is accepted: it is appended as a further history entry, its
notification fires, and the signature's cached timestamp is refreshed
to the new time.  `_hwf` and `_ht` pin the `u64` subtractions of the
source to the no-underflow range where `Nat` subtraction agrees. -/
theorem c1_dedup_two_second_window
    (s s1 : ServerState) (es1 : List Emit) (r1 r2 : NetworkRequest) (f1 f2 : String)
    (t1 t2 : Nat) (sig : RequestSignature)
    (hsig1 : create_request_signature (assignRequestId r1 f1) = some sig)
    (hsig2 : create_request_signature (assignRequestId r2 f2) = some sig)
    (_hwf : ∀ p ∈ s.dedupCache, p.2 ≤ t1)
    (_ht : t1 ≤ t2)
    (h1 : process_network_request s r1 f1 t1 = some (s1, es1))
    (hacc : s1.requests = s.requests ++ [assignRequestId r1 f1]) :
    (t2 - t1 < 2 →
      process_network_request s1 r2 f2 t2 =
        some ({ s1 with dedupCache := retainFresh t2 s1.dedupCache }, []))
    ∧ (2 ≤ t2 - t1 →
      ∃ s2, process_network_request s1 r2 f2 t2
              = some (s2, [Emit.newRequest (assignRequestId r2 f2)])
        ∧ s2.requests = s1.requests ++ [assignRequestId r2 f2]
        ∧ lookupKey s2.dedupCache sig = some t2) := by
  have hc : s1.dedupCache = mapInsert (retainFresh t1 s.dedupCache) sig t1 :=
    accepted_cache_shape hsig1 h1 hacc
  constructor
  · intro hlt
    have h300 : t2 - t1 < 300 := lt_trans hlt (by norm_num)
    have hret : retainFresh t2 s1.dedupCache
        = (sig, t1) :: retainFresh t2 (eraseKey sig (retainFresh t1 s.dedupCache)) := by
      rw [hc, mapInsert, retainFresh_cons, if_pos h300]
    have hlook : lookupKey (retainFresh t2 s1.dedupCache) sig = some t1 := by
      rw [hret, lookupKey_cons, if_pos rfl]
    rw [process_network_request_eq hsig2, dedup_decision_found_recent hlook hlt]
    simp
  · intro hge
    have hnlt : ¬ t2 - t1 < 2 := not_lt.mpr hge
    by_cases h300 : t2 - t1 < 300
    · have hret : retainFresh t2 s1.dedupCache
          = (sig, t1) :: retainFresh t2 (eraseKey sig (retainFresh t1 s.dedupCache)) := by
        rw [hc, mapInsert, retainFresh_cons, if_pos h300]
      have hlook : lookupKey (retainFresh t2 s1.dedupCache) sig = some t1 := by
        rw [hret, lookupKey_cons, if_pos rfl]
      rw [process_network_request_eq hsig2, dedup_decision_found_old hlook hnlt]
      exact ⟨{ s1 with requests := s1.requests ++ [assignRequestId r2 f2], dedupCache := mapInsert (retainFresh t2 s1.dedupCache) sig t2 }, by simp, rfl, lookupKey_mapInsert_self _ sig t2⟩
    · have hlook : lookupKey (retainFresh t2 s1.dedupCache) sig = none := by
        rw [hc, mapInsert, retainFresh_cons, if_neg h300]
        exact lookupKey_retainFresh_eraseKey t2 sig (retainFresh t1 s.dedupCache)
      rw [process_network_request_eq hsig2, dedup_decision_absent hlook]
      exact ⟨{ s1 with requests := s1.requests ++ [assignRequestId r2 f2], dedupCache := mapInsert (retainFresh t2 s1.dedupCache) sig t2 }, by simp, rfl, lookupKey_mapInsert_self _ sig t2⟩

/-- C9: a rejected duplicate does not refresh the cached last-seen
timestamp.  With the signature's cache entry at `u` (its last accepted
occurrence), a resubmission at `t` with `t - u < 2` is rejected and the
entry still reads `u` afterwards — the suppression window stays
anchored at the last acceptance — while a resubmission with
`2 ≤ t - u` is accepted, appended to the history, and only then is the
entry refreshed to `t`.  So an identical event re-sent once per second
is accepted whenever 2 or more seconds have passed since the previous
acceptance, not suppressed indefinitely. -/
theorem c9_reject_keeps_timestamp
    (s : ServerState) (r : NetworkRequest) (f : String) (t u : Nat)
    (sig : RequestSignature)
    (hsig : create_request_signature (assignRequestId r f) = some sig)
    (_hwf : ∀ p ∈ s.dedupCache, p.2 ≤ t)
    (hnodup : (s.dedupCache.map Prod.fst).Nodup)
    (hu : lookupKey s.dedupCache sig = some u) :
    (t - u < 2 →
      process_network_request s r f t
          = some ({ s with dedupCache := retainFresh t s.dedupCache }, [])
      ∧ lookupKey (retainFresh t s.dedupCache) sig = some u)
    ∧ (2 ≤ t - u →
      ∃ s2, process_network_request s r f t
              = some (s2, [Emit.newRequest (assignRequestId r f)])
        ∧ s2.requests = s.requests ++ [assignRequestId r f]
        ∧ lookupKey s2.dedupCache sig = some t) := by
  constructor
  · intro hlt
    have h300 : t - u < 300 := lt_trans hlt (by norm_num)
    have hlook : lookupKey (retainFresh t s.dedupCache) sig = some u :=
      lookupKey_retainFresh_found hu h300
    rw [process_network_request_eq hsig, dedup_decision_found_recent hlook hlt]
    exact ⟨by simp, hlook⟩
  · intro hge
    have hnlt : ¬ t - u < 2 := not_lt.mpr hge
    by_cases h300 : t - u < 300
    · have hlook : lookupKey (retainFresh t s.dedupCache) sig = some u :=
        lookupKey_retainFresh_found hu h300
      rw [process_network_request_eq hsig, dedup_decision_found_old hlook hnlt]
      exact ⟨{ s with requests := s.requests ++ [assignRequestId r f], dedupCache := mapInsert (retainFresh t s.dedupCache) sig t }, by simp, rfl, lookupKey_mapInsert_self _ sig t⟩
    · have hlook : lookupKey (retainFresh t s.dedupCache) sig = none :=
        lookupKey_retainFresh_stale hnodup hu h300
      rw [process_network_request_eq hsig, dedup_decision_absent hlook]
      exact ⟨{ s with requests := s.requests ++ [assignRequestId r f], dedupCache := mapInsert (retainFresh t s.dedupCache) sig t }, by simp, rfl, lookupKey_mapInsert_self _ sig t⟩

/-- C5: inbound text-frame decoding tries the interpretations in order.
A frame that deserializes as a bare `NetworkRequest` is handled as
traffic, with no look at any discriminant; failing that, a parsed value
whose `"type"` field is the string `"asyncstorage-operation"` and which
deserializes as a storage operation is handled as storage; a parsed
value with any other `"type"` string, or whose `"type"` field is
missing or not a string, and unparseable text, are all discarded with
the state unchanged and nothing emitted; and processing a text frame
never terminates the read loop or the relay, so the connection stays
open. -/
theorem c5_decode_order (s : ServerState) (j : Json) (fresh : String) (t : Nat) :
    (∀ request, decodeNetworkRequest j = some request →
      handle_text s (some j) fresh t = process_network_request s request fresh t)
    ∧ (∀ operation, decodeNetworkRequest j = none →
        j.getField "type" = some (Json.str "asyncstorage-operation") →
        decodeAsyncStorageOperation j = some operation →
        handle_text s (some j) fresh t = some (process_storage_operation s operation fresh))
    ∧ (∀ msgType, decodeNetworkRequest j = none →
        j.getField "type" = some (Json.str msgType) →
        msgType ≠ "asyncstorage-operation" →
        handle_text s (some j) fresh t = some (s, []))
    ∧ (decodeNetworkRequest j = none → j.getField "type" = none →
        handle_text s (some j) fresh t = some (s, []))
    ∧ (handle_text s none fresh t = some (s, []))
    ∧ (∀ (h : HandlerState) (doc : TextDoc) (h' : HandlerState),
        read_step h (InFrame.text doc) fresh t = some h' →
        h'.readAlive = h.readAlive ∧ h'.relayAlive = h.relayAlive) := by
  refine ⟨?_, ?_, ?_, ?_, rfl, ?_⟩
  · intro request hreq
    simp [handle_text, hreq]
  · intro operation hreq htype hop
    simp [handle_text, hreq, htype, hop]
  · intro msgType hreq htype hne
    simp [handle_text, hreq, htype, hne]
  · intro hreq htype
    simp [handle_text, hreq, htype]
  · intro h doc h' hstep
    by_cases halive : h.readAlive
    · rw [read_step, if_pos halive] at hstep
      cases hht : handle_text h.server doc fresh t with
      | none => rw [hht] at hstep; cases hstep
      | some pr =>
        rw [hht] at hstep
        cases pr with
        | mk s' es =>
          simp only [Option.some.injEq] at hstep
          rw [← hstep]
          exact ⟨rfl, rfl⟩
    · rw [read_step, if_neg halive] at hstep
      simp only [Option.some.injEq] at hstep
      rw [← hstep]
      exact ⟨rfl, rfl⟩

/-- C10: each decoded frame kind touches only its own stores.  A frame
decoded as a `NetworkRequest` leaves the storage-operation history and
the key/value projection exactly as they were, and processing a decoded
`AsyncStorageOperation` leaves the traffic history and the dedup cache
exactly as they were. -/
theorem c10_store_isolation :
    (∀ (s : ServerState) (j : Json) (request : NetworkRequest) (fresh : String)
       (t : Nat) (s' : ServerState) (es : List Emit),
      decodeNetworkRequest j = some request →
      handle_text s (some j) fresh t = some (s', es) →
      s'.asyncStorageOps = s.asyncStorageOps ∧ s'.asyncStorageData = s.asyncStorageData)
    ∧ (∀ (s : ServerState) (op : AsyncStorageOperation) (fresh : String),
      (process_storage_operation s op fresh).1.requests = s.requests
      ∧ (process_storage_operation s op fresh).1.dedupCache = s.dedupCache) := by
  constructor
  · intro s j request fresh t s' es hreq hht
    have hpr : process_network_request s request fresh t = some (s', es) := by
      rw [← hht]
      simp [handle_text, hreq]
    cases hsig : create_request_signature (assignRequestId request fresh) with
    | none =>
      rw [process_network_request, hsig] at hpr
      cases hpr
    | some sig =>
      rw [process_network_request_eq hsig] at hpr
      by_cases hdec : (dedup_decision s.dedupCache sig t).1 = true
      · rw [if_pos hdec] at hpr
        simp only [Option.some.injEq, Prod.mk.injEq] at hpr
        rw [← hpr.1]
        exact ⟨rfl, rfl⟩
      · rw [if_neg hdec] at hpr
        simp only [Option.some.injEq, Prod.mk.injEq] at hpr
        rw [← hpr.1]
        exact ⟨rfl, rfl⟩
  · intro s op fresh
    exact ⟨rfl, rfl⟩

/-- C7: a ping frame from the client is answered by a pong carrying the
byte-identical payload, appended to the outbound trace as part of
handling that very frame — so, the read loop being sequential, the
reply is recorded before any later frame of the stream is processed:
running the loop on `ping p` followed by `rest` equals running it on
`rest` from the state whose outbound trace already ends in `pong p`. -/
theorem c7_ping_answered_with_pong (h : HandlerState) (p : List Nat) (fresh : String)
    (t : Nat) (halive : h.readAlive = true) (hsink : h.sinkBroken = false) :
    read_step h (InFrame.ping p) fresh t
      = some { h with sent := h.sent ++ [OutFrame.pong p] }
    ∧ ∀ (rest : List ReadInput),
        run_read h (⟨InFrame.ping p, fresh, t⟩ :: rest)
          = run_read { h with sent := h.sent ++ [OutFrame.pong p] } rest := by
  have hstep : read_step h (InFrame.ping p) fresh t
      = some { h with sent := h.sent ++ [OutFrame.pong p] } := by
    rw [read_step, if_pos halive]
    simp [hsink]
  refine ⟨hstep, fun rest => ?_⟩
  rw [run_read]
  rw [hstep]

/-- A connection handler whose client sink is broken while both duties
still run: the environment for the C2 scenario. -/
def brokenSinkConn : HandlerState :=
  { server := ⟨[], [], [], []⟩, readAlive := true, relayAlive := true,
    sinkBroken := true, sent := [], emits := [] }

/-- A well-formed bare traffic frame. -/
def sampleTrafficJson : Json :=
  Json.obj [("id", Json.str "req-1"), ("url", Json.str "https://example.com"),
            ("method", Json.str "GET"), ("headers", Json.obj []),
            ("timestamp", Json.num 5)]

/-- C2 counterexample: on a connection with a broken outbound channel,
the relay task detects the broken sink and stops, but the whole
connection is not torn down: the read loop is still alive and goes on
to process a further traffic frame (appending it to the history), so
Open does not go to Closing when the outbound relay detects a broken
sink — contradicting the claim that the per-connection read loop also
terminates. -/
theorem c2_counterexample_read_loop_survives :
    (relay_step brokenSinkConn (Json.str "cmd")).relayAlive = false
    ∧ (relay_step brokenSinkConn (Json.str "cmd")).readAlive = true
    ∧ ∃ h2, read_step (relay_step brokenSinkConn (Json.str "cmd"))
          (InFrame.text (some sampleTrafficJson)) "fresh" 5 = some h2
        ∧ h2.readAlive = true ∧ h2.relayAlive = false
        ∧ h2.server.requests.length = 1 := by
  exact ⟨rfl, rfl, ⟨_, rfl, rfl, rfl, rfl⟩⟩

/-- C2, amended: when a connection's outbound channel is broken, the
relay task that drains the bus stops as soon as it next tries to write
— but that alone does not tear down the connection: the read loop's
liveness, the stores and the outbound trace are untouched by the
relay's death.  The whole connection is torn down, aborting the relay
task, only when the read loop itself ends — on a close frame, a read
error, or when the read loop's own pong write hits the broken sink. -/
theorem c2_broken_sink_stops_relay_only
    (h : HandlerState) (cmd : Json) (p : List Nat) (fresh : String) (t : Nat)
    (hrelay : h.relayAlive = true) (hbroken : h.sinkBroken = true) :
    (relay_step h cmd).relayAlive = false
    ∧ (relay_step h cmd).readAlive = h.readAlive
    ∧ (relay_step h cmd).server = h.server
    ∧ (relay_step h cmd).sent = h.sent
    ∧ (h.readAlive = true → read_step h (InFrame.ping p) fresh t = some (teardown h))
    ∧ (h.readAlive = true → read_step h InFrame.close fresh t = some (teardown h))
    ∧ (h.readAlive = true → read_step h InFrame.readError fresh t = some (teardown h))
    ∧ (teardown h).relayAlive = false := by
  have hrel : relay_step h cmd = { h with relayAlive := false } := by
    rw [relay_step, if_pos hrelay, if_pos hbroken]
  refine ⟨by rw [hrel], by rw [hrel], by rw [hrel], by rw [hrel], ?_, ?_, ?_, rfl⟩
  · intro halive
    rw [read_step, if_pos halive]
    simp [hbroken]
  · intro halive
    rw [read_step, if_pos halive]
  · intro halive
    rw [read_step, if_pos halive]

/-- A request whose identifier is already non-empty and whose signature
is `⟨"GET", "u", [], "pending"⟩`. -/
def demoReq : NetworkRequest := ⟨"r", "u", "GET", [], none, none, 0, none⟩

/-- The server state after `demoReq` was accepted at second 100. -/
def c1FirstState : ServerState :=
  ⟨[demoReq], [], [], [(⟨"GET", "u", [], "pending"⟩, 100)]⟩

/-- Witness for C1: a resubmission of `demoReq` one second after its
acceptance is rejected with no new history entry and no emission. -/
theorem c1_dedup_two_second_window_witness :
    process_network_request c1FirstState demoReq "u2" 101
      = some ({ c1FirstState with dedupCache := retainFresh 101 c1FirstState.dedupCache },
              []) := by
  exact (c1_dedup_two_second_window ⟨[], [], [], []⟩ c1FirstState [Emit.newRequest demoReq]
    demoReq demoReq "u1" "u2" 100 101 ⟨"GET", "u", [], "pending"⟩ rfl rfl
    (by decide) (by decide) (by decide) (by decide)).1 (by decide)

/-- Witness for C9: the rejected resubmission leaves the signature's
cached timestamp at 100, the last accepted occurrence. -/
theorem c9_reject_keeps_timestamp_witness :
    process_network_request c1FirstState demoReq "u3" 101
      = some ({ c1FirstState with dedupCache := retainFresh 101 c1FirstState.dedupCache },
              [])
    ∧ lookupKey (retainFresh 101 c1FirstState.dedupCache) ⟨"GET", "u", [], "pending"⟩
        = some 100 := by
  exact (c9_reject_keeps_timestamp c1FirstState demoReq "u3" 101 100
    ⟨"GET", "u", [], "pending"⟩ rfl (by decide) (by decide) (by decide)).1 (by decide)

def setOpDemo : AsyncStorageOperation :=
  ⟨"1", "setItem", some "a", some "1", none, none, 0, none, none, none⟩

def removeOpDemo : AsyncStorageOperation :=
  ⟨"2", "removeItem", some "a", none, none, none, 0, none, none, none⟩

def clearOpDemo : AsyncStorageOperation :=
  ⟨"3", "clear", none, none, none, none, 0, none, none, none⟩

def bulkOpDemo : AsyncStorageOperation :=
  ⟨"4", "getAllDataResponse", none, none, none,
   some [("a", some "1"), ("b", none)], 0, none, none, none⟩

/-- A `setItem` with its required `value` missing. -/
def badSetOpDemo : AsyncStorageOperation :=
  ⟨"5", "setItem", some "a", none, none, none, 0, none, none, none⟩

/-- Witness for C3: set, remove, clear and the bulk replace with
snapshot `a ↦ "1", b ↦ null` behave as claimed on concrete
projections. -/
theorem c3_projection_semantics_witness :
    lookupKey (apply_storage_operation [("z", some "0")] setOpDemo) "a" = some (some "1")
    ∧ lookupKey (apply_storage_operation [("a", some "1")] removeOpDemo) "a" = none
    ∧ apply_storage_operation [("a", some "1")] clearOpDemo = []
    ∧ lookupKey (apply_storage_operation [("z", some "0")] bulkOpDemo) "b" = some none
    ∧ lookupKey (apply_storage_operation [("z", some "0")] bulkOpDemo) "z" = none := by
  refine ⟨(c3_projection_semantics.1 [("z", some "0")] setOpDemo "a" "1" rfl rfl rfl).1,
          (c3_projection_semantics.2.1 [("a", some "1")] removeOpDemo "a" rfl rfl).1,
          c3_projection_semantics.2.2.1 [("a", some "1")] clearOpDemo rfl,
          (c3_projection_semantics.2.2.2.1 [("z", some "0")]
            [("a", some "1"), ("b", none)] bulkOpDemo rfl rfl (by decide) "b").trans
            (by decide),
          (c3_projection_semantics.2.2.2.1 [("z", some "0")]
            [("a", some "1"), ("b", none)] bulkOpDemo rfl rfl (by decide) "z").trans
            (by decide)⟩

/-- A server state with a non-empty storage history and projection. -/
def busyState : ServerState := ⟨[], [setOpDemo], [("z", some "0")], []⟩

/-- Witness for C4: a `setItem` without a value is still appended to the
storage history while the projection stays unchanged. -/
theorem c4_history_unconditional_witness :
    (process_storage_operation busyState badSetOpDemo "f").1.asyncStorageOps
        = busyState.asyncStorageOps ++ [assignOperationId badSetOpDemo "f"]
    ∧ (process_storage_operation busyState badSetOpDemo "f").1.asyncStorageData
        = busyState.asyncStorageData := by
  exact ⟨(c4_history_unconditional busyState badSetOpDemo "f").1,
         (c4_history_unconditional busyState badSetOpDemo "f").2.1 rfl (Or.inr rfl)⟩

/-- A discriminated storage frame. -/
def sampleStorageJson : Json :=
  Json.obj [("type", Json.str "asyncstorage-operation"), ("id", Json.str "op-1"),
            ("operation", Json.str "setItem"), ("key", Json.str "a"),
            ("value", Json.str "1"), ("timestamp", Json.num 5)]

/-- What `sampleTrafficJson` deserializes to. -/
def decodedTrafficDemo : NetworkRequest :=
  ⟨"req-1", "https://example.com", "GET", [], none, none, 5, none⟩

/-- What `sampleStorageJson` deserializes to. -/
def decodedStorageDemo : AsyncStorageOperation :=
  ⟨"op-1", "setItem", some "a", some "1", none, none, 5, none, none, none⟩

/-- A frame with an unrecognized discriminant. -/
def unknownTypeJson : Json := Json.obj [("type", Json.str "bogus")]

/-- Witness for C5: the three interpretations on concrete frames — a
bare traffic frame, a discriminated storage frame, an unknown
discriminant, and non-JSON text. -/
theorem c5_decode_order_witness :
    handle_text ⟨[], [], [], []⟩ (some sampleTrafficJson) "f" 5
      = process_network_request ⟨[], [], [], []⟩ decodedTrafficDemo "f" 5
    ∧ handle_text ⟨[], [], [], []⟩ (some sampleStorageJson) "f" 5
      = some (process_storage_operation ⟨[], [], [], []⟩ decodedStorageDemo "f")
    ∧ handle_text ⟨[], [], [], []⟩ (some unknownTypeJson) "f" 5 = some (⟨[], [], [], []⟩, [])
    ∧ handle_text ⟨[], [], [], []⟩ none "f" 5 = some (⟨[], [], [], []⟩, []) := by
  refine ⟨(c5_decode_order ⟨[], [], [], []⟩ sampleTrafficJson "f" 5).1 decodedTrafficDemo rfl,
          (c5_decode_order ⟨[], [], [], []⟩ sampleStorageJson "f" 5).2.1 decodedStorageDemo
            rfl rfl rfl,
          (c5_decode_order ⟨[], [], [], []⟩ unknownTypeJson "f" 5).2.2.1 "bogus"
            rfl rfl (by decide),
          (c5_decode_order ⟨[], [], [], []⟩ Json.null "f" 5).2.2.2.2.1⟩

/-- A connection with a working sink and both duties running. -/
def healthyConn : HandlerState :=
  { server := ⟨[], [], [], []⟩, readAlive := true, relayAlive := true,
    sinkBroken := false, sent := [], emits := [] }

/-- Witness for C7: the pong answering ping `[1, 2, 3]` carries exactly
`[1, 2, 3]` and is already in the outbound trace when the next frame is
handled. -/
theorem c7_ping_answered_with_pong_witness :
    read_step healthyConn (InFrame.ping [1, 2, 3]) "f" 0
      = some { healthyConn with sent := healthyConn.sent ++ [OutFrame.pong [1, 2, 3]] }
    ∧ run_read healthyConn (⟨InFrame.ping [1, 2, 3], "f", 0⟩ :: [⟨InFrame.close, "g", 1⟩])
      = run_read { healthyConn with sent := healthyConn.sent ++ [OutFrame.pong [1, 2, 3]] }
          [⟨InFrame.close, "g", 1⟩] := by
  exact ⟨(c7_ping_answered_with_pong healthyConn [1, 2, 3] "f" 0 rfl rfl).1,
         (c7_ping_answered_with_pong healthyConn [1, 2, 3] "f" 0 rfl rfl).2
           [⟨InFrame.close, "g", 1⟩]⟩

/-- Witness for C2 (amended): on `brokenSinkConn` the relay stops
without touching the read loop, and the read loop's own failed pong
write is what tears the connection down. -/
theorem c2_broken_sink_stops_relay_only_witness :
    (relay_step brokenSinkConn (Json.str "k")).relayAlive = false
    ∧ (relay_step brokenSinkConn (Json.str "k")).readAlive = brokenSinkConn.readAlive
    ∧ read_step brokenSinkConn (InFrame.ping [7]) "f" 0 = some (teardown brokenSinkConn) := by
  have hc := c2_broken_sink_stops_relay_only brokenSinkConn (Json.str "k") [7] "f" 0 rfl rfl
  exact ⟨hc.1, hc.2.1, hc.2.2.2.2.1 rfl⟩

/-- The server state produced by handling `sampleTrafficJson` from
`busyState`. -/
def c10ResultState : ServerState :=
  ⟨[decodedTrafficDemo], [setOpDemo], [("z", some "0")],
   [(⟨"GET", "https://example.com", [], "pending"⟩, 5)]⟩

/-- Witness for C10: the concrete traffic frame leaves `busyState`'s
storage stores untouched, and a concrete storage operation leaves its
traffic history and dedup cache untouched. -/
theorem c10_store_isolation_witness :
    c10ResultState.asyncStorageOps = busyState.asyncStorageOps
    ∧ c10ResultState.asyncStorageData = busyState.asyncStorageData
    ∧ (process_storage_operation busyState setOpDemo "f").1.requests = busyState.requests
    ∧ (process_storage_operation busyState setOpDemo "f").1.dedupCache
        = busyState.dedupCache := by
  have hiso := c10_store_isolation.1 busyState sampleTrafficJson decodedTrafficDemo "f" 5
    c10ResultState [Emit.newRequest decodedTrafficDemo] rfl (by decide)
  exact ⟨hiso.1, hiso.2, (c10_store_isolation.2 busyState setOpDemo "f").1,
         (c10_store_isolation.2 busyState setOpDemo "f").2⟩
